import Mathlib

/-!
Verification development for the Lambda-s3 thumbnail ingestion pipeline.

The embedding below models `src/lambda_code/lambda_function.py` (the most
complete variant, adopted as canonical by the design notes of the spec):
a handler that, per S3 notification record, URL-decodes the object key,
probes and fetches the source object, decodes and resizes the image with
Pillow, uploads a JPEG thumbnail to a destination bucket and upserts a
metadata item into a DynamoDB table.  External effects are modelled by
explicit state passing over a `World` together with a trace of `Action`s;
Pillow's decoder and JPEG encoder are abstract function fields of the
world, while the pure parts (key derivation, `Image.thumbnail` geometry,
mode conversion) are modelled exactly.
-/

namespace LambdaS3

/-! ### Python string primitives -/

/-- Fuel-indexed core of Python `str.replace(pat, rep)`: replaces all
non-overlapping occurrences of `pat`, scanning left to right.  Each step
consumes at least one character, so any fuel of at least `l.length`
computes the untruncated result.  An empty pattern is treated as "no
occurrence" (the handler only uses non-empty patterns). -/
def replaceCharsAux (pat rep : List Char) : Nat → List Char → List Char
  | _, [] => []
  | 0, l => l
  | fuel + 1, c :: rest =>
    if pat ≠ [] ∧ pat.isPrefixOf (c :: rest) then
      rep ++ replaceCharsAux pat rep fuel (List.drop pat.length (c :: rest))
    else
      c :: replaceCharsAux pat rep fuel rest

/-- Python `str.replace(pat, rep)` on character lists. -/
def replaceChars (pat rep l : List Char) : List Char :=
  replaceCharsAux pat rep l.length l

/-- Python `s.replace(pat, rep)` on strings. -/
def pyReplace (s pat rep : String) : String :=
  ⟨replaceChars pat.data rep.data s.data⟩

/-- Value of a hexadecimal digit character, if it is one. -/
def hexDigitVal (c : Char) : Option Nat :=
  if '0' ≤ c ∧ c ≤ '9' then some (c.toNat - '0'.toNat)
  else if 'a' ≤ c ∧ c ≤ 'f' then some (c.toNat - 'a'.toNat + 10)
  else if 'A' ≤ c ∧ c ≤ 'F' then some (c.toNat - 'A'.toNat + 10)
  else none

/-- Percent-decoding of `urllib.parse.unquote` restricted to single-byte
(ASCII) escapes: each `%hh` with two hex digits becomes the character with
that code; an invalid escape is left as literal text. -/
def unquoteChars : List Char → List Char
  | [] => []
  | '%' :: a :: b :: rest =>
    match hexDigitVal a, hexDigitVal b with
    | some hi, some lo => Char.ofNat (16 * hi + lo) :: unquoteChars rest
    | _, _ => '%' :: unquoteChars (a :: b :: rest)
  | c :: rest => c :: unquoteChars rest

/-- Python `urllib.parse.unquote_plus`: `+` becomes a space, then percent
escapes are decoded. -/
def unquote_plus (s : String) : String :=
  ⟨unquoteChars (s.data.map (fun c => if c = '+' then ' ' else c))⟩

/-! ### Pillow geometry: `Image.thumbnail((100, 100))`

`Image.thumbnail` preserves the aspect ratio and never upscales.  Its
size computation (Pillow's `preserve_aspect_ratio`) is modelled here with
exact integer arithmetic: `round_aspect` picks between the floor and the
ceiling of the exact proportional value, whichever minimises the stated
aspect error (ties go to the floor, as Python's `min` is stable), and
clamps the result to at least 1. -/

/-- New width when the height is clamped to `bnd`: Pillow's
`round_aspect(bnd * aspect, key=abs(aspect - n / bnd))`.  The candidates
are the floor and the ceiling of the exact value `bnd * w / h`, and for
this key the comparison reduces to rounding half-down. -/
def round_aspect_x (w h bnd : Nat) : Nat :=
  max (if 2 * (bnd * w % h) ≤ h then bnd * w / h else bnd * w / h + 1) 1

/-- New height when the width is clamped to `bnd`: Pillow's
`round_aspect(bnd / aspect, key=0 if n == 0 else abs(aspect - bnd / n))`.
The candidates are the floor `n1` and the ceiling `n1 + 1` of the exact
value `bnd * h / w`; a zero floor has key 0 and wins, and the clamp lifts
it to 1; otherwise the key comparison
`bnd/n1 - w/h ≤ w/h - bnd/(n1+1)` cross-multiplies (by `h * n1 * (n1+1)`)
to `bnd * h * (n1 + (n1+1)) ≤ 2 * w * (n1 * (n1+1))`, ties to the floor. -/
def round_aspect_y (w h bnd : Nat) : Nat :=
  if bnd * h % w = 0 then max (bnd * h / w) 1
  else if bnd * h / w = 0 then 1
  else if bnd * h * (bnd * h / w + (bnd * h / w + 1)) ≤
          2 * w * (bnd * h / w * (bnd * h / w + 1)) then bnd * h / w
  else bnd * h / w + 1

/-- Size computed by `Image.thumbnail((bx, bhy))` on a `w × h` image:
unchanged when already within bounds, otherwise scaled so that one
dimension equals its bound and the other is the aspect-rounded value. -/
def pilThumbnail (w h bx bhy : Nat) : Nat × Nat :=
  if bx ≥ w ∧ bhy ≥ h then (w, h)
  else if w * bhy ≤ bx * h then (round_aspect_x w h bhy, bhy)
  else (bx, round_aspect_y w h bx)

/-! ### Data model -/

/-- The decoded bitmap as far as the handler observes it: dimensions and
Pillow color mode. -/
structure PILImage where
  width : Nat
  height : Nat
  mode : String
deriving DecidableEq, Repr

/-- `image.convert('RGB')`: same geometry, RGB mode. -/
def convertRGB (img : PILImage) : PILImage :=
  { img with mode := "RGB" }

/-- Lines 122-125 of the canonical handler: paletted, alpha and luminance
modes are converted to RGB, and so is any other non-RGB mode. -/
def convertIfNeeded (img : PILImage) : PILImage :=
  if img.mode = "RGBA" ∨ img.mode = "LA" ∨ img.mode = "P" then convertRGB img
  else if img.mode ≠ "RGB" then convertRGB img
  else img

/-- Image after mode conversion and `image.thumbnail((100, 100))`. -/
def finalImage (img : PILImage) : PILImage :=
  let c := convertIfNeeded img
  let dims := pilThumbnail c.width c.height 100 100
  { c with width := dims.1, height := dims.2 }

/-- Bytes and size/last-modified data of a stored source object. -/
structure SrcObject where
  body : List Nat
  contentLength : Nat
  lastModified : String
deriving DecidableEq, Repr

/-- The DynamoDB item written in step 5 of the handler. -/
structure MetadataItem where
  imageName : String
  imageSize : String
  creationDate : String
  processedDate : String
  thumbnailKey : String
deriving DecidableEq, Repr

/-- One entry of `event['Records'][i]['s3']`; a missing nested field is
`none` and raises `KeyError` when accessed. -/
structure S3Entity where
  bucketName : Option String
  objectKey : Option String
deriving DecidableEq, Repr

/-- One element of `event['Records']`; `s3 = none` models a record
without an `'s3'` key. -/
structure EventRecord where
  s3 : Option S3Entity
deriving DecidableEq, Repr

/-- External calls issued by the handler, with their success where it
matters to control flow or to the stores. -/
inductive Action where
  | headObject (bucket key : String)
  | listObjects (bucket : String)
  | getObject (bucket key : String)
  | headBucket (bucket : String) (ok : Bool)
  | putObject (bucket key : String) (body : List Nat) (contentType : String) (ok : Bool)
  | deleteObject (bucket key : String) (ok : Bool)
  | tableLoad (table : String) (ok : Bool)
  | putItem (table : String) (item : MetadataItem) (ok : Bool)
deriving DecidableEq, Repr

/-- Per-record outcome, read off the handler's control flow: each
`continue` site and the fall-through to the final success print. -/
inductive Outcome where
  | skippedNotS3
  | unexpectedError
  | failedSource
  | failedDownload
  | failedDecode
  | failedUpload
  | success
deriving DecidableEq, Repr

/-- Association-list upsert: overwrite the entry with the same key or
append a fresh one.  Models both S3 `put_object` per key and DynamoDB
`put_item` keyed by the partition key. -/
def upsertAssoc {α : Type} (k : String) (v : α) : List (String × α) → List (String × α)
  | [] => [(k, v)]
  | (k', v') :: rest => if k' = k then (k, v) :: rest else (k', v') :: upsertAssoc k v rest

/-- Association-list lookup. -/
def lookupAssoc {α : Type} (k : String) : List (String × α) → Option α
  | [] => none
  | (k', v') :: rest => if k' = k then some v' else lookupAssoc k rest

/-- Association-list removal, modelling `delete_object`. -/
def removeAssoc {α : Type} (k : String) : List (String × α) → List (String × α)
  | [] => []
  | (k', v') :: rest => if k' = k then rest else (k', v') :: removeAssoc k rest

/-- The external world: the source object store, the Pillow decoder and
encoder (abstract but fixed functions), per-call success switches for
each fallible external call, the wall clock, and the two mutable stores
(destination bucket contents and DynamoDB table contents). -/
structure World where
  source : String → String → Option SrcObject
  getOk : String → String → Bool
  listOk : Bool
  decode : List Nat → Option PILImage
  save : PILImage → String → Nat → List Nat
  headBucketOk : Bool
  destPutOk : String → Bool
  verifyOk : Bool
  deleteOk : Bool
  tableLoadOk : Bool
  putItemOk : Bool
  now : String
  dest : List (String × List Nat)
  records : List (String × MetadataItem)

/-- Result of processing one record: its outcome, the calls made, and the
world afterwards. -/
structure RecResult where
  outcome : Outcome
  actions : List Action
  world : World

/-! ### The handler, step by step -/

/-- Line 142-143: `thumbnail_key = f"thumbnails/{key.replace(' ', '-')}.jpg"`
followed by `thumbnail_key.replace('//', '/')`. -/
def mkThumbnailKey (key : String) : String :=
  pyReplace ("thumbnails/" ++ pyReplace key " " "-" ++ ".jpg") "//" "/"

/-- Step 3 (lines 116-133): decode the bytes, convert the mode, bound the
size, and save as JPEG at quality 85.  `none` models the decode throwing. -/
def makeThumbnail (w : World) (data : List Nat) : Option (PILImage × List Nat) :=
  match w.decode data with
  | none => none
  | some img => some (finalImage img, w.save (finalImage img) "JPEG" 85)

/-- The metadata item of step 5 (lines 203-209). -/
def itemOf (w : World) (key : String) (obj : SrcObject) : MetadataItem :=
  { imageName := key
    imageSize := toString obj.body.length
    creationDate := obj.lastModified
    processedDate := w.now
    thumbnailKey := mkThumbnailKey key }

/-- Lines 177-188: after a failed upload, probe write permission with a
fixed `permission-test.txt` object and delete it if the put succeeded. -/
def permissionTest (w : World) (tb : String) : List Action × World :=
  let testBody : List Nat := [116, 101, 115, 116]
  if w.destPutOk "permission-test.txt" then
    let w1 := { w with dest := upsertAssoc "permission-test.txt" testBody w.dest }
    if w.deleteOk then
      ([Action.putObject tb "permission-test.txt" testBody "text/plain" true,
        Action.deleteObject tb "permission-test.txt" true],
       { w1 with dest := removeAssoc "permission-test.txt" w1.dest })
    else
      ([Action.putObject tb "permission-test.txt" testBody "text/plain" true,
        Action.deleteObject tb "permission-test.txt" false], w1)
  else
    ([Action.putObject tb "permission-test.txt" testBody "text/plain" false], w)

/-- Step 5 (lines 191-216): load the table (failure only logged), build
the item and `put_item` it.  A `put_item` failure is caught and falls
through to the success print, so the outcome is `success` either way. -/
def metadataStep (w : World) (tbl key : String) (obj : SrcObject) (acts : List Action) : RecResult :=
  let item := itemOf w key obj
  if w.putItemOk then
    ⟨Outcome.success,
     acts ++ [Action.tableLoad tbl w.tableLoadOk, Action.putItem tbl item true],
     { w with records := upsertAssoc key item w.records }⟩
  else
    ⟨Outcome.success,
     acts ++ [Action.tableLoad tbl w.tableLoadOk, Action.putItem tbl item false], w⟩

/-- Step 4 (lines 140-189): derive the destination key, probe the bucket
(failure only logged), attempt the upload, verify it with a head call, and
on any failure run the permission test and skip the metadata step. -/
def uploadStep (w : World) (tb tbl bucket key : String) (obj : SrcObject)
    (thumbnailData : List Nat) : RecResult :=
  let thumbnailKey := mkThumbnailKey key
  let pre := [Action.headObject bucket key, Action.getObject bucket key,
              Action.headBucket tb w.headBucketOk]
  if w.destPutOk thumbnailKey then
    let w1 := { w with dest := upsertAssoc thumbnailKey thumbnailData w.dest }
    let upActs := pre ++ [Action.putObject tb thumbnailKey thumbnailData "image/jpeg" true,
                          Action.headObject tb thumbnailKey]
    if w.verifyOk then
      metadataStep w1 tbl key obj upActs
    else
      let p := permissionTest w1 tb
      ⟨Outcome.failedUpload, upActs ++ p.1, p.2⟩
  else
    let p := permissionTest w tb
    ⟨Outcome.failedUpload,
     pre ++ [Action.putObject tb thumbnailKey thumbnailData "image/jpeg" false] ++ p.1, p.2⟩

/-- Steps 1-5 for a record whose bucket and (already decoded) key were
extracted successfully. -/
def processKeyed (w : World) (tb tbl bucket key : String) : RecResult :=
  match w.source bucket key with
  | none =>
    if w.listOk then
      ⟨Outcome.failedSource, [Action.headObject bucket key, Action.listObjects bucket], w⟩
    else
      ⟨Outcome.unexpectedError, [Action.headObject bucket key, Action.listObjects bucket], w⟩
  | some obj =>
    if w.getOk bucket key then
      match makeThumbnail w obj.body with
      | none => ⟨Outcome.failedDecode, [Action.headObject bucket key, Action.getObject bucket key], w⟩
      | some (_, thumbnailData) => uploadStep w tb tbl bucket key obj thumbnailData
    else
      ⟨Outcome.failedDownload, [Action.headObject bucket key, Action.getObject bucket key], w⟩

/-- One iteration of the `for record in event['Records']` loop: a record
without an `'s3'` key is skipped outright (line 71-73); a missing nested
field raises `KeyError`, caught by the outer handler (line 222); otherwise
the key is URL-decoded (line 82) and the five steps run. -/
def processRecord (w : World) (tb tbl : String) (r : EventRecord) : RecResult :=
  match r.s3 with
  | none => ⟨Outcome.skippedNotS3, [], w⟩
  | some s3e =>
    match s3e.bucketName, s3e.objectKey with
    | some bucket, some rawKey => processKeyed w tb tbl bucket (unquote_plus rawKey)
    | some _, none => ⟨Outcome.unexpectedError, [], w⟩
    | none, _ => ⟨Outcome.unexpectedError, [], w⟩

/-- The whole record loop, threading the world left to right. -/
def processBatch (w : World) (tb tbl : String) : List EventRecord → List Outcome × List Action × World
  | [] => ([], [], w)
  | r :: rest =>
    let res := processRecord w tb tbl r
    let t := processBatch res.world tb tbl rest
    (res.outcome :: t.1, res.actions ++ t.2.1, t.2.2)

/-- Process-wide configuration: the two environment variables and the
Pillow import probe. -/
structure Env where
  thumbnailBucket : Option String
  dynamodbTable : Option String
  pillowAvailable : Bool

/-- Python truthiness of `os.environ.get(...)`: missing or empty. -/
def falsyEnv : Option String → Bool
  | none => true
  | some s => s = ""

/-- `json.dumps` of a plain string. -/
def jsonDumps (s : String) : String := "\"" ++ s ++ "\""

/-- The handler's return value plus the observable effects of the call. -/
structure HandlerResult where
  statusCode : Nat
  body : String
  outcomes : List Outcome
  actions : List Action
  world : World

/-- `lambda_handler`: environment checks (lines 42-61), the `Records`
shape check (line 64-66), then the record loop; always returns 200 once
the loop is entered.  `eventRecords = none` models an event without a
`Records` key. -/
def lambda_handler (env : Env) (w : World) (eventRecords : Option (List EventRecord)) :
    HandlerResult :=
  if falsyEnv env.thumbnailBucket ∨ falsyEnv env.dynamodbTable then
    ⟨500, jsonDumps "Missing environment variables", [], [], w⟩
  else if ¬ env.pillowAvailable then
    ⟨500, jsonDumps "Pillow library not available", [], [], w⟩
  else
    match eventRecords with
    | none => ⟨200, "Not an S3 event", [], [], w⟩
    | some [] => ⟨200, "Not an S3 event", [], [], w⟩
    | some recs =>
      let t := processBatch w (env.thumbnailBucket.getD "") (env.dynamodbTable.getD "") recs
      ⟨200, jsonDumps "Processing completed", t.1, t.2.1, t.2.2⟩

/-! ### A concrete scenario

A small closed world used to evaluate the model on explicit inputs: one
source object whose bytes decode to a 400×300 RGBA image, a schematic
encoder, and all external calls succeeding unless overridden. -/

/-- Decoder recognising one fixed byte string as a 400×300 RGBA image. -/
def decode0 : List Nat → Option PILImage := fun data =>
  if data = [1, 2, 3] then some ⟨400, 300, "RGBA"⟩ else none

/-- Schematic deterministic encoder: records dimensions and quality. -/
def save0 : PILImage → String → Nat → List Nat := fun img _fmt q =>
  [img.width % 256, img.height % 256, q % 256]

/-- The one stored source object of the scenario. -/
def srcObj0 : SrcObject := ⟨[1, 2, 3], 3, "2024-01-01T00:00:00"⟩

/-- A source store holding one object under the decoded key. -/
def source0 : String → String → Option SrcObject := fun b k =>
  if b = "src-bucket" ∧ k = "my photo.png" then some srcObj0 else none

/-- The all-succeeding world over `source0`. -/
def baseWorld : World where
  source := source0
  getOk := fun _ _ => true
  listOk := true
  decode := decode0
  save := save0
  headBucketOk := true
  destPutOk := fun _ => true
  verifyOk := true
  deleteOk := true
  tableLoadOk := true
  putItemOk := true
  now := "2024-01-01T00:10:00"
  dest := []
  records := []

/-- A well-formed notification for the stored object, key URL-encoded. -/
def validRec : EventRecord := ⟨some ⟨some "src-bucket", some "my+photo.png"⟩⟩

/-- A record without the expected nested fields. -/
def malformedRec : EventRecord := ⟨none⟩

/-- A record whose `s3` entry is present but whose nested bucket and
object fields are missing: accessing them raises `KeyError`. -/
def nestedMalformedRec : EventRecord := ⟨some ⟨none, none⟩⟩

/-- The scenario world with a failing record store. -/
def metadataFailWorld : World := { baseWorld with putItemOk := false }

/-- The scenario world where only the permission-probe key is writable
and the probe delete fails. -/
def permProbeWorld : World :=
  { baseWorld with destPutOk := fun k => k == "permission-test.txt", deleteOk := false }

/-- First processing of the valid event. -/
def firstRun : RecResult := processRecord baseWorld "tb" "tbl" validRec

/-- Reprocessing of the same event on the resulting world, at a later
wall-clock time. -/
def secondRun : RecResult :=
  processRecord { firstRun.world with now := "2024-01-02T09:00:00" } "tb" "tbl" validRec

/-- The storage calls a record with decoded key `dkey` may make: every
call names the source object under the decoded key, the thumbnail key
derived from the decoded key, the fixed permission-probe key, or the
metadata table with the decoded key as item name. -/
def usesKey (bucket tb tbl dkey : String) : Action → Prop
  | .headObject b k => (b = bucket ∧ k = dkey) ∨ (b = tb ∧ k = mkThumbnailKey dkey)
  | .listObjects b => b = bucket
  | .getObject b k => b = bucket ∧ k = dkey
  | .headBucket b _ => b = tb
  | .putObject b k _ _ _ => b = tb ∧ (k = mkThumbnailKey dkey ∨ k = "permission-test.txt")
  | .deleteObject b k _ => b = tb ∧ k = "permission-test.txt"
  | .tableLoad t _ => t = tbl
  | .putItem t item _ => t = tbl ∧ item.imageName = dkey ∧ item.thumbnailKey = mkThumbnailKey dkey

/-! ## Lemmas about the string primitives -/

/-- A replacement pass leaves a string without an occurrence unchanged. -/
theorem replaceCharsAux_of_not_infix (pat rep : List Char) (fuel : Nat) (l : List Char)
    (h : ¬ pat <:+: l) : replaceCharsAux pat rep fuel l = l := by
  induction fuel generalizing l with
  | zero => cases l <;> rfl
  | succ fuel ih =>
    cases l with
    | nil => rfl
    | cons c rest =>
      simp only [replaceCharsAux]
      have hcond : ¬ (pat ≠ [] ∧ pat.isPrefixOf (c :: rest)) := by
        rintro ⟨-, hp⟩
        exact h (List.IsPrefix.isInfix (List.isPrefixOf_iff_prefix.mp hp))
      rw [if_neg hcond, ih rest (fun hinf => h (List.infix_cons hinf))]

/-- A replacement pass leaves a string without an occurrence unchanged. -/
theorem replaceChars_of_not_infix (pat rep l : List Char) (h : ¬ pat <:+: l) :
    replaceChars pat rep l = l :=
  replaceCharsAux_of_not_infix pat rep l.length l h

/-- Characters of a replacement result come from the input or from the
replacement text. -/
theorem mem_of_mem_replaceCharsAux (pat rep : List Char) (fuel : Nat) (l : List Char) (a : Char)
    (h : a ∈ replaceCharsAux pat rep fuel l) : a ∈ l ∨ a ∈ rep := by
  induction fuel generalizing l with
  | zero =>
    cases l with
    | nil => simp only [replaceCharsAux] at h; cases h
    | cons c rest => exact Or.inl h
  | succ fuel ih =>
    cases l with
    | nil => simp only [replaceCharsAux] at h; cases h
    | cons c rest =>
      simp only [replaceCharsAux] at h
      split at h
      · rcases List.mem_append.mp h with h1 | h2
        · exact Or.inr h1
        · rcases ih _ h2 with h3 | h4
          · exact Or.inl (List.mem_of_mem_drop h3)
          · exact Or.inr h4
      · rcases List.mem_cons.mp h with h1 | h2
        · exact Or.inl (by simp [h1])
        · rcases ih _ h2 with h3 | h4
          · exact Or.inl (List.mem_cons_of_mem _ h3)
          · exact Or.inr h4

/-- A list holding at most one `a` has no `[a, a]` infix. -/
theorem not_infix_pair_of_count (a : Char) (l : List Char) (h : l.count a ≤ 1) :
    ¬ ([a, a] <:+: l) := by
  rintro ⟨s, t, rfl⟩
  simp only [List.count_append, List.count_cons, List.count_nil] at h
  simp at h
  omega

/-- With no separator in the key, the pre-collapse destination string has
exactly the one separator of the prefix. -/
theorem count_slash_preCollapse (k : String) (hk : '/' ∉ k.data) :
    ("thumbnails/" ++ pyReplace k " " "-" ++ ".jpg").data.count '/' = 1 := by
  rw [String.data_append, String.data_append, List.count_append, List.count_append]
  have h2 : (pyReplace k " " "-").data.count '/' = 0 := by
    rw [List.count_eq_zero]
    intro hmem
    rcases mem_of_mem_replaceCharsAux _ _ _ _ _ hmem with h3 | h4
    · exact hk h3
    · exact absurd h4 (by decide)
  rw [h2]
  decide

/-- Keys without a path separator derive to a destination key without a
doubled separator. -/
theorem mkThumbnailKey_no_double_slash (k : String) (hk : '/' ∉ k.data) :
    ¬ (['/', '/'] <:+: (mkThumbnailKey k).data) := by
  have hni : ¬ (['/', '/'] <:+: ("thumbnails/" ++ pyReplace k " " "-" ++ ".jpg").data) :=
    not_infix_pair_of_count '/' _ (by rw [count_slash_preCollapse k hk])
  have he : (mkThumbnailKey k).data = ("thumbnails/" ++ pyReplace k " " "-" ++ ".jpg").data := by
    show (pyReplace _ "//" "/").data = _
    show replaceChars "//".data "/".data _ = _
    exact replaceChars_of_not_infix _ _ _ hni
  rw [he]
  exact hni

/-! ## Lemmas about the resize geometry -/

/-- When the height is the binding dimension, the rounded width is at
most the bound and is within one pixel of the exact proportional value. -/
theorem round_aspect_x_spec (w h : Nat) (hw : 1 ≤ w) (hh : 1 ≤ h) (hle : w ≤ h) :
    round_aspect_x w h 100 ≤ 100 ∧
    round_aspect_x w h 100 * h < 100 * w + h ∧
    100 * w < round_aspect_x w h 100 * h + h := by
  unfold round_aspect_x
  have hdm := Nat.div_add_mod (100 * w) h
  have hrlt : 100 * w % h < h := Nat.mod_lt _ (by omega)
  have hqle : 100 * w / h ≤ 100 := by
    have h1 : 100 * w ≤ 100 * h := by omega
    have h2 := Nat.div_le_div_right (c := h) h1
    have h3 : 100 * h / h = 100 := Nat.mul_div_cancel _ (by omega)
    omega
  rw [mul_comm h (100 * w / h)] at hdm
  generalize hq : 100 * w / h = q at *
  generalize hr : 100 * w % h = r at *
  by_cases hc : 2 * r ≤ h
  · rw [if_pos hc]
    rcases Nat.eq_zero_or_pos q with hq0 | hq1
    · rw [hq0] at hdm ⊢
      simp only [Nat.zero_mul, Nat.zero_add] at hdm
      simp only [Nat.max_def]
      norm_num
      omega
    · have hmax : max q 1 = q := by omega
      rw [hmax]
      generalize q * h = P at *
      omega
  · rw [if_neg hc]
    have hq99 : q ≤ 99 := by
      by_contra hcon
      have hq100 : q = 100 := by omega
      rw [hq100] at hdm
      omega
    have hmax : max (q + 1) 1 = q + 1 := by omega
    rw [hmax]
    have he : (q + 1) * h = q * h + h := by ring
    rw [he]
    generalize q * h = P at *
    omega

/-- When the width is the binding dimension, the rounded height is at
most the bound and is within one pixel of the exact proportional value. -/
theorem round_aspect_y_spec (w h : Nat) (hw : 1 ≤ w) (hh : 1 ≤ h) (hlt : h < w) :
    round_aspect_y w h 100 ≤ 100 ∧
    round_aspect_y w h 100 * w < 100 * h + w ∧
    100 * h < round_aspect_y w h 100 * w + w := by
  unfold round_aspect_y
  have hdm := Nat.div_add_mod (100 * h) w
  have hrlt : 100 * h % w < w := Nat.mod_lt _ (by omega)
  have hn1 : 100 * h / w < 100 := by
    rw [Nat.div_lt_iff_lt_mul (by omega)]
    omega
  rw [mul_comm w (100 * h / w)] at hdm
  generalize hq : 100 * h / w = n1 at *
  generalize hr : 100 * h % w = r at *
  by_cases hr0 : r = 0
  · rw [if_pos hr0]
    rw [hr0] at hdm
    have hn1pos : 1 ≤ n1 := by
      rcases Nat.eq_zero_or_pos n1 with h0 | h1
      · rw [h0] at hdm
        simp only [Nat.zero_mul, Nat.zero_add] at hdm
        omega
      · exact h1
    have hmax : max n1 1 = n1 := by omega
    rw [hmax]
    generalize n1 * w = P at *
    omega
  · rw [if_neg hr0]
    by_cases hn0 : n1 = 0
    · rw [if_pos hn0]
      rw [hn0] at hdm
      simp only [Nat.zero_mul, Nat.zero_add] at hdm
      omega
    · rw [if_neg hn0]
      split
      · generalize n1 * w = P at *
        omega
      · have he : (n1 + 1) * w = n1 * w + w := by ring
        rw [he]
        generalize n1 * w = P at *
        omega

/-- `Image.thumbnail((100, 100))` never exceeds the bound, is the
identity on already-small images, and changes the aspect ratio by less
than one pixel of rounding. -/
theorem pilThumbnail_spec (w h : Nat) (hw : 1 ≤ w) (hh : 1 ≤ h) :
    (pilThumbnail w h 100 100).1 ≤ 100 ∧
    (pilThumbnail w h 100 100).2 ≤ 100 ∧
    ((w ≤ 100 ∧ h ≤ 100) → pilThumbnail w h 100 100 = (w, h)) ∧
    (pilThumbnail w h 100 100).1 * h < (pilThumbnail w h 100 100).2 * w + max w h ∧
    (pilThumbnail w h 100 100).2 * w < (pilThumbnail w h 100 100).1 * h + max w h := by
  unfold pilThumbnail
  by_cases h1 : 100 ≥ w ∧ 100 ≥ h
  · rw [if_pos h1]
    have e : w * h = h * w := Nat.mul_comm w h
    refine ⟨h1.1, h1.2, fun _ => rfl, ?_, ?_⟩ <;>
      simp only [] <;> rw [e] <;> exact Nat.lt_add_of_pos_right (by omega)
  · rw [if_neg h1]
    by_cases h2 : w * 100 ≤ 100 * h
    · rw [if_pos h2]
      have hle : w ≤ h := by omega
      have hmax : max w h = h := by omega
      obtain ⟨s1, s2, s3⟩ := round_aspect_x_spec w h hw hh hle
      exact ⟨s1, le_refl 100, fun hcon => absurd hcon h1, by rw [hmax]; exact s2,
             by rw [hmax]; exact s3⟩
    · rw [if_neg h2]
      have hlt : h < w := by omega
      have hmax : max w h = w := by omega
      obtain ⟨s1, s2, s3⟩ := round_aspect_y_spec w h hw hh hlt
      exact ⟨le_refl 100, s1, fun hcon => absurd hcon h1, by rw [hmax]; exact s3,
             by rw [hmax]; exact s2⟩

/-! ## Lemmas about the stores -/

/-- Looking up the upserted key yields the upserted value. -/
theorem lookupAssoc_upsert {α : Type} (k : String) (v : α) (l : List (String × α)) :
    lookupAssoc k (upsertAssoc k v l) = some v := by
  induction l with
  | nil => simp [upsertAssoc, lookupAssoc]
  | cons p rest ih =>
    obtain ⟨k1, v1⟩ := p
    by_cases hk : k1 = k
    · simp [upsertAssoc, lookupAssoc, hk]
    · simp [upsertAssoc, lookupAssoc, hk, ih]

/-- Upserting the same key-value pair twice is the same as once. -/
theorem upsertAssoc_idem {α : Type} (k : String) (v : α) (l : List (String × α)) :
    upsertAssoc k v (upsertAssoc k v l) = upsertAssoc k v l := by
  induction l with
  | nil => simp [upsertAssoc]
  | cons p rest ih =>
    obtain ⟨k1, v1⟩ := p
    by_cases hk : k1 = k
    · simp [upsertAssoc, hk]
    · simp [upsertAssoc, hk, ih]

/-- An upsert does not change the number of stored entries when the key
is already present, and adds one entry otherwise; in particular it never
appends a duplicate. -/
theorem length_upsertAssoc {α : Type} (k : String) (v : α) (l : List (String × α)) :
    (upsertAssoc k v l).length = if (lookupAssoc k l).isSome then l.length else l.length + 1 := by
  induction l with
  | nil => simp [upsertAssoc, lookupAssoc]
  | cons p rest ih =>
    obtain ⟨k1, v1⟩ := p
    by_cases hk : k1 = k
    · simp [upsertAssoc, lookupAssoc, hk]
    · simp only [upsertAssoc, lookupAssoc, hk, if_false, List.length_cons, ih]
      split <;> rfl

/-! ## Lemmas about the handler's branches -/

/-- The calls made by the permission self-test: the fixed-key put, and
the delete exactly when the put succeeded. -/
theorem permissionTest_actions (w : World) (tb : String) :
    (permissionTest w tb).1 =
      Action.putObject tb "permission-test.txt" [116, 101, 115, 116] "text/plain"
        (w.destPutOk "permission-test.txt") ::
      (if w.destPutOk "permission-test.txt" then
        [Action.deleteObject tb "permission-test.txt" w.deleteOk] else []) := by
  unfold permissionTest
  cases h1 : w.destPutOk "permission-test.txt" <;> cases h2 : w.deleteOk <;> simp [h1, h2]

/-- The permission self-test never writes a metadata item. -/
theorem permissionTest_no_putItem (w : World) (tb : String) (t : String) (item : MetadataItem)
    (ok : Bool) : Action.putItem t item ok ∉ (permissionTest w tb).1 := by
  rw [permissionTest_actions]
  cases h1 : w.destPutOk "permission-test.txt" <;> simp [h1]

/-- The permission self-test leaves the record store untouched. -/
theorem permissionTest_records (w : World) (tb : String) :
    (permissionTest w tb).2.records = w.records := by
  unfold permissionTest
  cases h1 : w.destPutOk "permission-test.txt" <;> cases h2 : w.deleteOk <;> simp [h1, h2]

/-- The world after the permission self-test. -/
theorem permissionTest_world (w : World) (tb : String) :
    (permissionTest w tb).2 =
      if w.destPutOk "permission-test.txt" then
        (if w.deleteOk then
          { w with dest := removeAssoc "permission-test.txt" (upsertAssoc "permission-test.txt" [116, 101, 115, 116] w.dest) }
         else
          { w with dest := upsertAssoc "permission-test.txt" [116, 101, 115, 116] w.dest })
      else w := by
  unfold permissionTest
  cases h1 : w.destPutOk "permission-test.txt" <;> cases h2 : w.deleteOk <;> simp [h1, h2]

/-- Full characterisation of a record that reaches step 5: the exact call
sequence and the exact stores afterwards.  The outcome is `success` even
when the metadata put fails, because the handler catches that failure and
falls through to its success report. -/
theorem processKeyed_success_eq (w : World) (tb tbl bucket key : String) (obj : SrcObject)
    (img : PILImage)
    (hsrc : w.source bucket key = some obj)
    (hget : w.getOk bucket key = true)
    (hdec : w.decode obj.body = some img)
    (hput : w.destPutOk (mkThumbnailKey key) = true)
    (hver : w.verifyOk = true) :
    processKeyed w tb tbl bucket key =
      ⟨Outcome.success,
       [Action.headObject bucket key, Action.getObject bucket key,
        Action.headBucket tb w.headBucketOk,
        Action.putObject tb (mkThumbnailKey key) (w.save (finalImage img) "JPEG" 85)
          "image/jpeg" true,
        Action.headObject tb (mkThumbnailKey key),
        Action.tableLoad tbl w.tableLoadOk,
        Action.putItem tbl (itemOf w key obj) w.putItemOk],
       if w.putItemOk then
         { w with
             dest := upsertAssoc (mkThumbnailKey key) (w.save (finalImage img) "JPEG" 85) w.dest,
             records := upsertAssoc key (itemOf w key obj) w.records }
       else
         { w with
             dest := upsertAssoc (mkThumbnailKey key) (w.save (finalImage img) "JPEG" 85) w.dest }⟩ := by
  unfold processKeyed makeThumbnail uploadStep metadataStep
  rw [hsrc]
  simp only [hget, hdec, hput, hver, if_true, ite_true]
  cases hpi : w.putItemOk <;> simp [hpi, itemOf]

/-- Full characterisation of a record whose thumbnail upload fails: the
permission self-test runs and the metadata step never does. -/
theorem processKeyed_uploadFail_eq (w : World) (tb tbl bucket key : String) (obj : SrcObject)
    (img : PILImage)
    (hsrc : w.source bucket key = some obj)
    (hget : w.getOk bucket key = true)
    (hdec : w.decode obj.body = some img)
    (hput : w.destPutOk (mkThumbnailKey key) = false) :
    processKeyed w tb tbl bucket key =
      ⟨Outcome.failedUpload,
       [Action.headObject bucket key, Action.getObject bucket key,
        Action.headBucket tb w.headBucketOk,
        Action.putObject tb (mkThumbnailKey key) (w.save (finalImage img) "JPEG" 85)
          "image/jpeg" false] ++ (permissionTest w tb).1,
       (permissionTest w tb).2⟩ := by
  unfold processKeyed makeThumbnail uploadStep
  rw [hsrc]
  simp [hget, hdec, hput]

/-- Dispatch of the record loop body to the keyed steps. -/
theorem processRecord_eq_keyed (w : World) (tb tbl : String) (r : EventRecord)
    (bucket raw : String) (hr : r.s3 = some ⟨some bucket, some raw⟩) :
    processRecord w tb tbl r = processKeyed w tb tbl bucket (unquote_plus raw) := by
  unfold processRecord
  rw [hr]

/-- The mode-normalisation step always yields the RGB mode. -/
theorem convertIfNeeded_mode (img : PILImage) : (convertIfNeeded img).mode = "RGB" := by
  by_cases h1 : img.mode = "RGBA" ∨ img.mode = "LA" ∨ img.mode = "P"
  · simp [convertIfNeeded, convertRGB, h1]
  · by_cases h2 : img.mode = "RGB"
    · simp [convertIfNeeded, convertRGB, h1, h2]
    · simp [convertIfNeeded, convertRGB, h1, h2]

/-- The image handed to the encoder is in RGB mode. -/
theorem finalImage_mode (img : PILImage) : (finalImage img).mode = "RGB" :=
  convertIfNeeded_mode img

/-! ## Claims -/

/-- C2 counterexample: for source key `"a///b"` the derived destination
key is `"thumbnails/a//b.jpg"`, which still contains a doubled path
separator — the single pass of `.replace('//', '/')` does not collapse
every resulting doubled separator to one. -/
theorem destination_key_cex :
    mkThumbnailKey "a///b" = "thumbnails/a//b.jpg" ∧
    ['/', '/'] <:+: (mkThumbnailKey "a///b").data := by decide

/-- C2 (amended): destination-key derivation is the pure function that
prepends the fixed prefix `"thumbnails/"`, replaces each space of the key
with a dash, appends `".jpg"`, and then performs one left-to-right pass
replacing `"//"` by `"/"` (so a doubled separator can survive only when
the key itself carries a run of at least three separators); for every key
without a path separator the result has no doubled separator, and the
spec's example `"my photo.png" ↦ "thumbnails/my-photo.png.jpg"` holds. -/
theorem destination_key_derivation (k : String) (hk : '/' ∉ k.data) :
    mkThumbnailKey "my photo.png" = "thumbnails/my-photo.png.jpg" ∧
    mkThumbnailKey k = pyReplace ("thumbnails/" ++ pyReplace k " " "-" ++ ".jpg") "//" "/" ∧
    ¬ (['/', '/'] <:+: (mkThumbnailKey k).data) :=
  ⟨by decide, rfl, mkThumbnailKey_no_double_slash k hk⟩

/-- C2 witness: the amended derivation claim evaluated at the concrete
key `"abc"`. -/
theorem destination_key_derivation_witness :
    mkThumbnailKey "my photo.png" = "thumbnails/my-photo.png.jpg" ∧
    mkThumbnailKey "abc" = pyReplace ("thumbnails/" ++ pyReplace "abc" " " "-" ++ ".jpg") "//" "/" ∧
    ¬ (['/', '/'] <:+: (mkThumbnailKey "abc").data) :=
  destination_key_derivation "abc" (by decide)

/-- C3: the resize to the fixed 100×100 bound never produces a dimension
exceeding 100, never upscales — an image already within the bound keeps
its exact dimensions — changes the aspect ratio by less than one pixel of
rounding (each cross product is within `max w h` of the other), and maps
400×300 to 100×75. -/
theorem resize_bounded_no_upscale (w h : Nat) (hw : 1 ≤ w) (hh : 1 ≤ h) :
    (pilThumbnail w h 100 100).1 ≤ 100 ∧
    (pilThumbnail w h 100 100).2 ≤ 100 ∧
    ((w ≤ 100 ∧ h ≤ 100) → pilThumbnail w h 100 100 = (w, h)) ∧
    (pilThumbnail w h 100 100).1 * h < (pilThumbnail w h 100 100).2 * w + max w h ∧
    (pilThumbnail w h 100 100).2 * w < (pilThumbnail w h 100 100).1 * h + max w h ∧
    pilThumbnail 400 300 100 100 = (100, 75) := by
  obtain ⟨a, b, c, d, e⟩ := pilThumbnail_spec w h hw hh
  exact ⟨a, b, c, d, e, by decide⟩

/-- C3 witness: the resize claim evaluated at the concrete 250×900
image, which scales to 28×100. -/
theorem resize_bounded_no_upscale_witness :
    (pilThumbnail 250 900 100 100).1 ≤ 100 ∧
    (pilThumbnail 250 900 100 100).2 ≤ 100 ∧
    ((250 ≤ 100 ∧ 900 ≤ 100) → pilThumbnail 250 900 100 100 = (250, 900)) ∧
    (pilThumbnail 250 900 100 100).1 * 900 < (pilThumbnail 250 900 100 100).2 * 250 + max 250 900 ∧
    (pilThumbnail 250 900 100 100).2 * 250 < (pilThumbnail 250 900 100 100).1 * 900 + max 250 900 ∧
    pilThumbnail 400 300 100 100 = (100, 75) :=
  resize_bounded_no_upscale 250 900 (by decide) (by decide)

/-- C9: whenever the thumbnail step succeeds, the image handed to the
encoder is in the RGB (non-alpha) mode — any paletted, alpha or
luminance mode having been converted — and the encoded bytes are
produced by the encoder at the fixed JPEG format and fixed quality 85. -/
theorem encode_rgb_jpeg_q85 (w : World) (data : List Nat) (img : PILImage) (bytes : List Nat)
    (h : makeThumbnail w data = some (img, bytes)) :
    img.mode = "RGB" ∧ bytes = w.save img "JPEG" 85 := by
  unfold makeThumbnail at h
  cases hd : w.decode data with
  | none => rw [hd] at h; cases h
  | some i =>
    rw [hd] at h
    simp only [Option.some.injEq, Prod.mk.injEq] at h
    obtain ⟨h1, h2⟩ := h
    subst h1
    subst h2
    exact ⟨finalImage_mode i, rfl⟩

/-- C9 witness: the encoding claim evaluated on the concrete world's
RGBA source image. -/
theorem encode_rgb_jpeg_q85_witness :
    (⟨100, 75, "RGB"⟩ : PILImage).mode = "RGB" ∧
    [100, 75, 85] = baseWorld.save ⟨100, 75, "RGB"⟩ "JPEG" 85 :=
  encode_rgb_jpeg_q85 baseWorld [1, 2, 3] ⟨100, 75, "RGB"⟩ [100, 75, 85] (by decide)

/-- A metadata write in the trace forces the full success path: the
source fetch, download, decode, thumbnail put and verification all
succeeded, and the item written is the step-5 item. -/
theorem putItem_mem_processKeyed (w : World) (tb tbl bucket key t : String)
    (item : MetadataItem) (ok : Bool)
    (hmem : Action.putItem t item ok ∈ (processKeyed w tb tbl bucket key).actions) :
    ∃ obj img, w.source bucket key = some obj ∧ w.getOk bucket key = true ∧
      w.decode obj.body = some img ∧ w.destPutOk (mkThumbnailKey key) = true ∧
      w.verifyOk = true ∧ t = tbl ∧ item = itemOf w key obj ∧ ok = w.putItemOk := by
  unfold processKeyed at hmem
  cases hsrc : w.source bucket key with
  | none =>
    rw [hsrc] at hmem
    cases hl : w.listOk <;> simp [hl] at hmem
  | some obj =>
    rw [hsrc] at hmem
    cases hget : w.getOk bucket key with
    | false => simp [hget] at hmem
    | true =>
      simp only [hget, if_true] at hmem
      cases hmk : makeThumbnail w obj.body with
      | none => rw [hmk] at hmem; simp at hmem
      | some pr =>
        rw [hmk] at hmem
        obtain ⟨img2, td⟩ := pr
        unfold makeThumbnail at hmk
        cases hdec : w.decode obj.body with
        | none => rw [hdec] at hmk; cases hmk
        | some i =>
          rw [hdec] at hmk
          simp only [Option.some.injEq, Prod.mk.injEq] at hmk
          obtain ⟨hi, htd⟩ := hmk
          unfold uploadStep at hmem
          cases hput : w.destPutOk (mkThumbnailKey key) with
          | false =>
            simp only [hput, Bool.false_eq_true, if_false] at hmem
            rcases List.mem_append.mp hmem with h | h
            · simp at h
            · exact absurd h (permissionTest_no_putItem _ tb t item ok)
          | true =>
            simp only [hput, if_true] at hmem
            cases hver : w.verifyOk with
            | false =>
              simp only [hver, Bool.false_eq_true, if_false] at hmem
              rcases List.mem_append.mp hmem with h | h
              · simp at h
              · exact absurd h (permissionTest_no_putItem _ tb t item ok)
            | true =>
              simp only [hver, if_true] at hmem
              unfold metadataStep at hmem
              cases hpi : w.putItemOk with
              | false =>
                simp only [hpi, Bool.false_eq_true, if_false] at hmem
                simp at hmem
                obtain ⟨h1, h2, h3⟩ := hmem
                exact ⟨obj, i, rfl, rfl, hdec, rfl, rfl, h1, h2, h3⟩
              | true =>
                simp only [hpi, if_true] at hmem
                simp at hmem
                obtain ⟨h1, h2, h3⟩ := hmem
                exact ⟨obj, i, rfl, rfl, hdec, rfl, rfl, h1, h2, h3⟩

/-- C1: a metadata write appears in an event's trace only after a
successful thumbnail put at the very key the item records; in
particular, when the thumbnail put for the event's derived key fails,
no metadata write is attempted for that event at all. -/
theorem metadata_only_after_thumbnail (w : World) (tb tbl bucket raw : String)
    (r : EventRecord) (hr : r.s3 = some ⟨some bucket, some raw⟩) :
    (w.destPutOk (mkThumbnailKey (unquote_plus raw)) = false →
      ∀ t item ok, Action.putItem t item ok ∉ (processRecord w tb tbl r).actions) ∧
    (∀ t item ok, Action.putItem t item ok ∈ (processRecord w tb tbl r).actions →
      ∃ body, List.Sublist
        [Action.putObject tb item.thumbnailKey body "image/jpeg" true,
         Action.putItem t item ok]
        (processRecord w tb tbl r).actions) := by
  rw [processRecord_eq_keyed w tb tbl r bucket raw hr]
  constructor
  · intro hfail t item ok hmem
    obtain ⟨obj, img, _, _, _, hput, _⟩ :=
      putItem_mem_processKeyed w tb tbl bucket (unquote_plus raw) t item ok hmem
    rw [hput] at hfail
    cases hfail
  · intro t item ok hmem
    obtain ⟨obj, img, hsrc, hget, hdec, hput, hver, rfl, rfl, rfl⟩ :=
      putItem_mem_processKeyed w tb tbl bucket (unquote_plus raw) t item ok hmem
    rw [processKeyed_success_eq _ _ _ _ _ obj img hsrc hget hdec hput hver]
    exact ⟨w.save (finalImage img) "JPEG" 85,
      List.Sublist.cons _ (List.Sublist.cons _ (List.Sublist.cons _ (List.Sublist.cons₂ _
        (List.Sublist.cons _ (List.Sublist.cons _
          (List.Sublist.cons₂ _ List.Sublist.slnil))))))⟩

/-- C1 witness: with every destination put failing, no metadata write
appears in the concrete event's trace. -/
theorem metadata_only_after_thumbnail_witness :
    Action.putItem "tbl" ⟨"a", "b", "c", "d", "e"⟩ true ∉
      (processRecord { baseWorld with destPutOk := fun _ => false } "tb" "tbl" validRec).actions :=
  (metadata_only_after_thumbnail { baseWorld with destPutOk := fun _ => false } "tb" "tbl"
    "src-bucket" "my+photo.png" validRec rfl).1 rfl "tbl" ⟨"a", "b", "c", "d", "e"⟩ true

/-- C6: when the destination bucket name or the table name is missing
(or empty) in the environment, the whole invocation returns the
configuration-error response before any event is touched: no outcomes,
no storage calls, and an unchanged world, for every batch. -/
theorem config_missing_fails_fast (env : Env) (w : World) (recs : Option (List EventRecord))
    (h : falsyEnv env.thumbnailBucket = true ∨ falsyEnv env.dynamodbTable = true) :
    lambda_handler env w recs =
      ⟨500, jsonDumps "Missing environment variables", [], [], w⟩ := by
  unfold lambda_handler
  rcases h with h | h <;> simp [h]

/-- C6 witness: the configuration-error claim evaluated with a missing
bucket name and a non-empty batch. -/
theorem config_missing_fails_fast_witness :
    lambda_handler ⟨none, some "tbl", true⟩ baseWorld (some [validRec]) =
      ⟨500, jsonDumps "Missing environment variables", [], [], baseWorld⟩ :=
  config_missing_fails_fast ⟨none, some "tbl", true⟩ baseWorld (some [validRec]) (Or.inl rfl)

/-- A malformed record — one without the `s3` entry, or with the `s3`
entry but missing nested bucket/object fields — is left unprocessed:
no storage call, unchanged world, and the outcome of the matching
`continue` site: the explicit skip for a missing `s3` entry, the caught
`KeyError` (outer except, line 222) for missing nested fields. -/
theorem processRecord_malformed (w : World) (tb tbl : String) (m : EventRecord)
    (hm : m.s3 = none ∨ ∃ e, m.s3 = some e ∧ (e.bucketName = none ∨ e.objectKey = none)) :
    processRecord w tb tbl m =
      ⟨if m.s3 = none then Outcome.skippedNotS3 else Outcome.unexpectedError, [], w⟩ := by
  rcases hm with hm | ⟨e, hme, hbad⟩
  · unfold processRecord
    rw [hm]
    simp
  · unfold processRecord
    rw [hme]
    simp only [hme]
    obtain ⟨bn, ok2⟩ := e
    rcases hbad with hb | hb
    · dsimp only at hb
      subst hb
      simp
    · dsimp only at hb
      subst hb
      cases bn <;> simp

/-- C4 counterexample: a batch holding one event whose `s3` entry is
present but whose nested bucket/object fields are missing, plus one
valid event, is not aborted — but the malformed event is reported with
the caught unexpected-error outcome, which is not the skipped outcome,
refuting "the malformed event is reported as skipped" for this
malformed shape. -/
theorem batch_malformed_not_skipped_cex :
    (lambda_handler ⟨some "tb", some "tbl", true⟩ baseWorld
      (some [nestedMalformedRec, validRec])).statusCode = 200 ∧
    (lambda_handler ⟨some "tb", some "tbl", true⟩ baseWorld
      (some [nestedMalformedRec, validRec])).outcomes =
      [Outcome.unexpectedError, Outcome.success] ∧
    Outcome.unexpectedError ≠ Outcome.skippedNotS3 := by decide

/-- C4 (amended): a batch holding one malformed event and one valid
event never aborts and never raises: it returns status 200, the valid
event is processed to success, and the malformed event yields a
per-event outcome without touching the world — the skipped outcome when
the record lacks the `s3` entry entirely, and the caught
unexpected-error outcome (not a skip) when the `s3` entry is present
with its nested bucket/object fields missing. -/
theorem batch_never_aborts (w : World) (tb tbl bucket raw : String) (obj : SrcObject)
    (img : PILImage) (m v : EventRecord)
    (htb : tb ≠ "") (htbl : tbl ≠ "")
    (hm : m.s3 = none ∨ ∃ e, m.s3 = some e ∧ (e.bucketName = none ∨ e.objectKey = none))
    (hv : v.s3 = some ⟨some bucket, some raw⟩)
    (hsrc : w.source bucket (unquote_plus raw) = some obj)
    (hget : w.getOk bucket (unquote_plus raw) = true)
    (hdec : w.decode obj.body = some img)
    (hput : w.destPutOk (mkThumbnailKey (unquote_plus raw)) = true)
    (hver : w.verifyOk = true) :
    (lambda_handler ⟨some tb, some tbl, true⟩ w (some [m, v])).statusCode = 200 ∧
    (lambda_handler ⟨some tb, some tbl, true⟩ w (some [m, v])).outcomes =
      [if m.s3 = none then Outcome.skippedNotS3 else Outcome.unexpectedError,
       Outcome.success] := by
  have hskip := processRecord_malformed w tb tbl m hm
  have hvv := processRecord_eq_keyed w tb tbl v bucket raw hv
  have hsucc := processKeyed_success_eq w tb tbl bucket (unquote_plus raw) obj img
    hsrc hget hdec hput hver
  have hf1 : falsyEnv (some tb) = false := by simp [falsyEnv, htb]
  have hf2 : falsyEnv (some tbl) = false := by simp [falsyEnv, htbl]
  unfold lambda_handler
  simp only [hf1, hf2, processBatch, hskip, hvv, hsucc]
  simp
  refine ⟨?_, ?_⟩
  · rw [hskip]
  · rw [hskip]
    dsimp only
    rw [hvv, hsucc]

/-- C4 witness: the batch claim evaluated on the concrete scenario
world, with the record that lacks the `s3` entry and the valid record. -/
theorem batch_never_aborts_witness :
    (lambda_handler ⟨some "tb", some "tbl", true⟩ baseWorld
      (some [malformedRec, validRec])).statusCode = 200 ∧
    (lambda_handler ⟨some "tb", some "tbl", true⟩ baseWorld
      (some [malformedRec, validRec])).outcomes =
      [if malformedRec.s3 = none then Outcome.skippedNotS3 else Outcome.unexpectedError,
       Outcome.success] :=
  batch_never_aborts baseWorld "tb" "tbl" "src-bucket" "my+photo.png" srcObj0 ⟨400, 300, "RGBA"⟩
    malformedRec validRec (by decide) (by decide) (Or.inl rfl) rfl (by decide) rfl (by decide)
    rfl rfl

/-- C5 counterexample: processing the same upload event twice, the
second time on the world left by the first run but at a later wall-clock
reading, stores a different `MetadataItem` — the `ProcessedDate` field
comes from `datetime.now()` and differs between the two occasions, so
the two processings do not produce the same metadata record. -/
theorem reprocess_same_record_cex :
    lookupAssoc "my photo.png" firstRun.world.records =
      some ⟨"my photo.png", "3", "2024-01-01T00:00:00", "2024-01-01T00:10:00",
            "thumbnails/my-photo.png.jpg"⟩ ∧
    lookupAssoc "my photo.png" secondRun.world.records =
      some ⟨"my photo.png", "3", "2024-01-01T00:00:00", "2024-01-02T09:00:00",
            "thumbnails/my-photo.png.jpg"⟩ ∧
    lookupAssoc "my photo.png" firstRun.world.records ≠
      lookupAssoc "my photo.png" secondRun.world.records := by decide

/-- C5 (amended): reprocessing the same event with the source object,
decoder, encoder and clock reading unchanged is fully idempotent: both
runs succeed, the second run re-derives the same destination key,
overwrites the same thumbnail bytes and upserts (not appends) the same
record keyed by the image name, leaving the world exactly as after the
first run; only the processed timestamp differs between occasions, and
only when the wall clock moved between them. -/
theorem reprocess_idempotent (w : World) (tb tbl bucket raw : String) (obj : SrcObject)
    (img : PILImage) (r : EventRecord)
    (hr : r.s3 = some ⟨some bucket, some raw⟩)
    (hsrc : w.source bucket (unquote_plus raw) = some obj)
    (hget : w.getOk bucket (unquote_plus raw) = true)
    (hdec : w.decode obj.body = some img)
    (hput : w.destPutOk (mkThumbnailKey (unquote_plus raw)) = true)
    (hver : w.verifyOk = true)
    (hpi : w.putItemOk = true) :
    (processRecord w tb tbl r).outcome = Outcome.success ∧
    (processRecord (processRecord w tb tbl r).world tb tbl r).outcome = Outcome.success ∧
    (processRecord (processRecord w tb tbl r).world tb tbl r).world =
      (processRecord w tb tbl r).world ∧
    lookupAssoc (mkThumbnailKey (unquote_plus raw)) (processRecord w tb tbl r).world.dest =
      some (w.save (finalImage img) "JPEG" 85) ∧
    lookupAssoc (unquote_plus raw) (processRecord w tb tbl r).world.records =
      some (itemOf w (unquote_plus raw) obj) := by
  have h1 := processRecord_eq_keyed w tb tbl r bucket raw hr
  have hs1 := processKeyed_success_eq w tb tbl bucket (unquote_plus raw) obj img
    hsrc hget hdec hput hver
  simp only [hpi, if_true] at hs1
  have hw1 : (processRecord w tb tbl r).world =
      { w with
          putItemOk := true,
          dest := upsertAssoc (mkThumbnailKey (unquote_plus raw))
            (w.save (finalImage img) "JPEG" 85) w.dest,
          records := upsertAssoc (unquote_plus raw) (itemOf w (unquote_plus raw) obj)
            w.records } := by
    rw [h1, hs1]
  have h2 := processRecord_eq_keyed
    { w with
        putItemOk := true,
        dest := upsertAssoc (mkThumbnailKey (unquote_plus raw))
          (w.save (finalImage img) "JPEG" 85) w.dest,
        records := upsertAssoc (unquote_plus raw) (itemOf w (unquote_plus raw) obj)
          w.records } tb tbl r bucket raw hr
  have hs2 := processKeyed_success_eq
    { w with
        putItemOk := true,
        dest := upsertAssoc (mkThumbnailKey (unquote_plus raw))
          (w.save (finalImage img) "JPEG" 85) w.dest,
        records := upsertAssoc (unquote_plus raw) (itemOf w (unquote_plus raw) obj)
          w.records } tb tbl bucket (unquote_plus raw) obj img hsrc hget hdec hput hver
  dsimp only at hs2
  simp only [if_true] at hs2
  refine ⟨by rw [h1, hs1], by rw [hw1, h2, hs2], ?_, ?_, ?_⟩
  · rw [hw1, h2, hs2]
    dsimp only [itemOf]
    rw [upsertAssoc_idem, upsertAssoc_idem]
  · rw [hw1]
    dsimp only
    exact lookupAssoc_upsert _ _ _
  · rw [hw1]
    dsimp only
    exact lookupAssoc_upsert _ _ _

/-- C5 witness: the idempotence claim evaluated on the concrete scenario
world and its valid event. -/
theorem reprocess_idempotent_witness :
    (processRecord baseWorld "tb" "tbl" validRec).outcome = Outcome.success ∧
    (processRecord (processRecord baseWorld "tb" "tbl" validRec).world "tb" "tbl"
      validRec).outcome = Outcome.success ∧
    (processRecord (processRecord baseWorld "tb" "tbl" validRec).world "tb" "tbl"
      validRec).world = (processRecord baseWorld "tb" "tbl" validRec).world ∧
    lookupAssoc (mkThumbnailKey (unquote_plus "my+photo.png"))
      (processRecord baseWorld "tb" "tbl" validRec).world.dest =
      some (baseWorld.save (finalImage ⟨400, 300, "RGBA"⟩) "JPEG" 85) ∧
    lookupAssoc (unquote_plus "my+photo.png")
      (processRecord baseWorld "tb" "tbl" validRec).world.records =
      some (itemOf baseWorld (unquote_plus "my+photo.png") srcObj0) :=
  reprocess_idempotent baseWorld "tb" "tbl" "src-bucket" "my+photo.png" srcObj0
    ⟨400, 300, "RGBA"⟩ validRec rfl (by decide) rfl (by decide) rfl rfl rfl

/-- C7 counterexample: with the thumbnail write succeeding and the
metadata write failing, the handler's control flow still reaches its
ordinary success report — the event's outcome is the same plain
`success` as that of a fully successful event, not a distinct
partial-success state — even though the thumbnail exists at the
destination and no record was written. -/
theorem metadata_failure_plain_success_cex :
    (processRecord metadataFailWorld "tb" "tbl" validRec).outcome = Outcome.success ∧
    (processRecord metadataFailWorld "tb" "tbl" validRec).world.records = [] ∧
    lookupAssoc "thumbnails/my-photo.png.jpg"
      (processRecord metadataFailWorld "tb" "tbl" validRec).world.dest = some [100, 75, 85] ∧
    (processRecord baseWorld "tb" "tbl" validRec).outcome = Outcome.success := by decide

/-- C7 (amended): when the thumbnail write succeeds and the metadata
write fails, the event ends in the partial-success state — thumbnail
stored at the derived key, record store untouched — and a later retry of
the same event with the record store back up still reaches success with
the record upserted; the handler however reports the event with the same
plain success outcome as a fully successful one rather than surfacing
the state distinctly. -/
theorem partial_success_state (w : World) (tb tbl bucket raw : String) (obj : SrcObject)
    (img : PILImage) (r : EventRecord)
    (hr : r.s3 = some ⟨some bucket, some raw⟩)
    (hsrc : w.source bucket (unquote_plus raw) = some obj)
    (hget : w.getOk bucket (unquote_plus raw) = true)
    (hdec : w.decode obj.body = some img)
    (hput : w.destPutOk (mkThumbnailKey (unquote_plus raw)) = true)
    (hver : w.verifyOk = true)
    (hfail : w.putItemOk = false) :
    (processRecord w tb tbl r).outcome = Outcome.success ∧
    (processRecord w tb tbl r).world.records = w.records ∧
    lookupAssoc (mkThumbnailKey (unquote_plus raw)) (processRecord w tb tbl r).world.dest =
      some (w.save (finalImage img) "JPEG" 85) ∧
    (processRecord { (processRecord w tb tbl r).world with putItemOk := true }
      tb tbl r).outcome = Outcome.success ∧
    lookupAssoc (unquote_plus raw)
      (processRecord { (processRecord w tb tbl r).world with putItemOk := true }
        tb tbl r).world.records = some (itemOf w (unquote_plus raw) obj) := by
  have h1 := processRecord_eq_keyed w tb tbl r bucket raw hr
  have hs1 := processKeyed_success_eq w tb tbl bucket (unquote_plus raw) obj img
    hsrc hget hdec hput hver
  simp only [hfail, Bool.false_eq_true, if_false] at hs1
  have hw1 : (processRecord w tb tbl r).world =
      { w with
          putItemOk := false,
          dest := upsertAssoc (mkThumbnailKey (unquote_plus raw))
            (w.save (finalImage img) "JPEG" 85) w.dest } := by
    rw [h1, hs1]
  have h2 := processRecord_eq_keyed
    { w with
        putItemOk := true,
        dest := upsertAssoc (mkThumbnailKey (unquote_plus raw))
          (w.save (finalImage img) "JPEG" 85) w.dest } tb tbl r bucket raw hr
  have hs2 := processKeyed_success_eq
    { w with
        putItemOk := true,
        dest := upsertAssoc (mkThumbnailKey (unquote_plus raw))
          (w.save (finalImage img) "JPEG" 85) w.dest }
    tb tbl bucket (unquote_plus raw) obj img hsrc hget hdec hput hver
  dsimp only at hs2
  simp only [if_true] at hs2
  refine ⟨by rw [h1, hs1], by rw [hw1], by rw [hw1]; dsimp only; exact lookupAssoc_upsert _ _ _,
    ?_, ?_⟩
  · rw [hw1]
    dsimp only
    rw [h2, hs2]
  · rw [hw1]
    dsimp only
    rw [h2, hs2]
    dsimp only
    exact lookupAssoc_upsert _ _ _

/-- C7 witness: the partial-success claim evaluated on the concrete
scenario world whose record store fails. -/
theorem partial_success_state_witness :
    (processRecord metadataFailWorld "tb" "tbl" validRec).outcome = Outcome.success ∧
    (processRecord metadataFailWorld "tb" "tbl" validRec).world.records =
      metadataFailWorld.records ∧
    lookupAssoc (mkThumbnailKey (unquote_plus "my+photo.png"))
      (processRecord metadataFailWorld "tb" "tbl" validRec).world.dest =
      some (metadataFailWorld.save (finalImage ⟨400, 300, "RGBA"⟩) "JPEG" 85) ∧
    (processRecord { (processRecord metadataFailWorld "tb" "tbl" validRec).world with
      putItemOk := true } "tb" "tbl" validRec).outcome = Outcome.success ∧
    lookupAssoc (unquote_plus "my+photo.png")
      (processRecord { (processRecord metadataFailWorld "tb" "tbl" validRec).world with
        putItemOk := true } "tb" "tbl" validRec).world.records =
      some (itemOf metadataFailWorld (unquote_plus "my+photo.png") srcObj0) :=
  partial_success_state metadataFailWorld "tb" "tbl" "src-bucket" "my+photo.png" srcObj0
    ⟨400, 300, "RGBA"⟩ validRec rfl (by decide) rfl (by decide) rfl rfl rfl

/-- C10: when the thumbnail upload for the event's derived key fails,
the handler performs external writes outside the event's own thumbnail
and record: it puts a probe object under the fixed key
`permission-test.txt` into the destination bucket, attempts to delete it
exactly when that put succeeded, and — when the delete also fails — the
probe object remains in the destination store. -/
theorem upload_failure_permission_probe (w : World) (tb tbl bucket raw : String)
    (r : EventRecord) (obj : SrcObject) (img : PILImage)
    (hr : r.s3 = some ⟨some bucket, some raw⟩)
    (hsrc : w.source bucket (unquote_plus raw) = some obj)
    (hget : w.getOk bucket (unquote_plus raw) = true)
    (hdec : w.decode obj.body = some img)
    (hput : w.destPutOk (mkThumbnailKey (unquote_plus raw)) = false) :
    (processRecord w tb tbl r).outcome = Outcome.failedUpload ∧
    Action.putObject tb "permission-test.txt" [116, 101, 115, 116] "text/plain"
      (w.destPutOk "permission-test.txt") ∈ (processRecord w tb tbl r).actions ∧
    (w.destPutOk "permission-test.txt" = true →
      Action.deleteObject tb "permission-test.txt" w.deleteOk ∈
        (processRecord w tb tbl r).actions) ∧
    (w.destPutOk "permission-test.txt" = false →
      ∀ k2 ok, Action.deleteObject tb k2 ok ∉ (processRecord w tb tbl r).actions) ∧
    (w.destPutOk "permission-test.txt" = true → w.deleteOk = false →
      lookupAssoc "permission-test.txt" (processRecord w tb tbl r).world.dest =
        some [116, 101, 115, 116]) := by
  rw [processRecord_eq_keyed w tb tbl r bucket raw hr]
  rw [processKeyed_uploadFail_eq w tb tbl bucket (unquote_plus raw) obj img hsrc hget hdec hput]
  dsimp only
  refine ⟨rfl, ?_, ?_, ?_, ?_⟩
  · apply List.mem_append.mpr
    right
    rw [permissionTest_actions]
    exact List.mem_cons_self _ _
  · intro hp
    apply List.mem_append.mpr
    right
    rw [permissionTest_actions, hp]
    simp
  · intro hp k2 ok hmem
    rcases List.mem_append.mp hmem with h | h
    · simp at h
    · rw [permissionTest_actions, hp] at h
      simp at h
  · intro hp hd
    rw [permissionTest_world, hp, hd]
    simp only [if_true, Bool.false_eq_true, if_false]
    exact lookupAssoc_upsert _ _ _

/-- C10 witness: on the scenario world where only the probe key is
writable and the probe delete fails, the probe object remains stored. -/
theorem upload_failure_permission_probe_witness :
    lookupAssoc "permission-test.txt"
      (processRecord permProbeWorld "tb" "tbl" validRec).world.dest =
      some [116, 101, 115, 116] :=
  (upload_failure_permission_probe permProbeWorld "tb" "tbl" "src-bucket" "my+photo.png"
    validRec srcObj0 ⟨400, 300, "RGBA"⟩ rfl (by decide) rfl (by decide)
    (by decide)).2.2.2.2 (by decide) rfl

/-- Every action of the permission self-test touches only the
destination bucket's probe key. -/
theorem permissionTest_usesKey (w : World) (tb bucket tbl dkey : String) :
    ∀ a ∈ (permissionTest w tb).1, usesKey bucket tb tbl dkey a := by
  rw [permissionTest_actions]
  intro a ha
  rcases List.mem_cons.mp ha with h | h
  · subst h
    simp [usesKey]
  · cases hp : w.destPutOk "permission-test.txt"
    · rw [hp] at h
      simp at h
    · rw [hp] at h
      simp at h
      subst h
      simp [usesKey]

/-- C8: every storage call made while processing an upload event uses
the URL-decoded object key or a value derived from it: the existence
probe and fetch use the decoded key, the thumbnail write uses the
destination key derived from the decoded key, the probe uses its fixed
key, and the metadata write stores the decoded key as the item name —
the raw percent-encoded key is never passed to a storage call. -/
theorem decoded_key_used_everywhere (w : World) (tb tbl bucket raw : String) (r : EventRecord)
    (hr : r.s3 = some ⟨some bucket, some raw⟩) :
    ∀ a ∈ (processRecord w tb tbl r).actions, usesKey bucket tb tbl (unquote_plus raw) a := by
  rw [processRecord_eq_keyed w tb tbl r bucket raw hr]
  unfold processKeyed
  cases hsrc : w.source bucket (unquote_plus raw) with
  | none =>
    intro a ha
    cases hl : w.listOk <;> rw [hl] at ha <;> simp at ha <;>
      (rcases ha with h | h <;> subst h <;> simp [usesKey])
  | some obj =>
    cases hget : w.getOk bucket (unquote_plus raw) with
    | false =>
      simp only [hget, Bool.false_eq_true, if_false]
      intro a ha
      simp only [List.mem_cons, List.not_mem_nil, or_false] at ha
      rcases ha with h | h <;> subst h <;> simp [usesKey]
    | true =>
      simp only [hget, if_true]
      cases hmk : makeThumbnail w obj.body with
      | none =>
        intro a ha
        simp only [List.mem_cons, List.not_mem_nil, or_false] at ha
        rcases ha with h | h <;> subst h <;> simp [usesKey]
      | some pr =>
        obtain ⟨img2, td⟩ := pr
        unfold uploadStep
        cases hput : w.destPutOk (mkThumbnailKey (unquote_plus raw)) with
        | false =>
          simp only [hput, Bool.false_eq_true, if_false]
          intro a ha
          rcases List.mem_append.mp ha with h | h
          · simp only [List.mem_append, List.mem_cons, List.not_mem_nil, or_false] at h
            rcases h with (h | h | h) | h <;> subst h <;> simp [usesKey]
          · exact permissionTest_usesKey w tb bucket tbl (unquote_plus raw) a h
        | true =>
          simp only [hput, if_true]
          cases hver : w.verifyOk with
          | false =>
            simp only [hver, Bool.false_eq_true, if_false]
            intro a ha
            rcases List.mem_append.mp ha with h | h
            · simp only [List.mem_append, List.mem_cons, List.not_mem_nil, or_false] at h
              rcases h with (h | h | h) | h | h <;> subst h <;> simp [usesKey]
            · exact permissionTest_usesKey _ tb bucket tbl (unquote_plus raw) a h
          | true =>
            simp only [hver, if_true]
            unfold metadataStep
            split <;>
            · intro a ha
              simp only [List.mem_append, List.mem_cons, List.not_mem_nil, or_false] at ha
              rcases ha with ((h | h | h) | h | h) | h | h <;> subst h <;>
                simp [usesKey, itemOf]

/-- C8 witness: the decoded-key claim evaluated at the concrete fetch
call of the scenario run, whose raw key is percent-encoded. -/
theorem decoded_key_used_everywhere_witness :
    usesKey "src-bucket" "tb" "tbl" (unquote_plus "my+photo.png")
      (Action.getObject "src-bucket" "my photo.png") :=
  decoded_key_used_everywhere baseWorld "tb" "tbl" "src-bucket" "my+photo.png" validRec rfl
    (Action.getObject "src-bucket" "my photo.png") (by decide)

end LambdaS3
